import Mathlib

/-!
Shallow embedding of the safes.io browser-extension core: the letterbox
preprocessing of `image_processor.js` and the model-session lifecycle and
inference orchestration of `background.js`.

Conventions of the embedding:

* JavaScript numbers are modelled exactly over `ℚ`; `Math.round` is
  `jsRound` (round half toward positive infinity) and `Math.floor` is
  `Int.floor`.
* The RGBA read-back of the padded canvas (`getImageData`) is produced by
  the host canvas API, so it enters `processImage` as a parameter
  `imageData : ℕ → Fin 256` (interleaved samples, row-major, four per
  pixel, each an 8-bit value).
* A `Float32Array` is modelled as its fixed allocation length together
  with the map from indices to stored values; unwritten indices keep the
  all-zero initialisation, and an out-of-range write is dropped (typed
  arrays ignore such writes) — the fill loop only writes in range.
* The inference engine (`ort`) is external: the outcome of
  `ort.InferenceSession.create` and the behaviour of `session.run` are
  oracle parameters of type `Except String _`, a thrown exception being
  `Except.error`.
* The mutable global `ortSession` of `background.js` is explicit state
  threaded through a list of lifecycle events (`bgRun`).  Instrumentation
  fields (`createCalls`, `engineCalled`, `tensorSent`, `tensorDisposed`)
  record which external calls an execution performs, so that claims about
  "no engine call is made" or "the tensor is disposed" are statable.
* For the concurrency claim about `initModel`, each of the two
  invocations is split at its single suspension point (the awaited
  `create` call) into two atomic steps; a schedule is the list of task
  ids in the order their steps run (`twoInitExec`).
-/

namespace Safes

/-! ## image_processor.js -/

/-- The fixed target size of `processImage` (line 24 of image_processor.js). -/
def targetSize : ℕ := 320

/-- JavaScript `Math.round`: round half toward positive infinity. -/
def jsRound (x : ℚ) : ℤ := ⌊x + 1 / 2⌋

/-- The resized dimensions `(newWidth, newHeight)` computed by
`processImage` (lines 36–50): `aspect = imgWidth / imgHeight`; if
`imgWidth >= imgHeight` then `newWidth = targetSize` and
`newHeight = Math.round(targetSize / aspect)`, else
`newHeight = targetSize` and `newWidth = Math.round(targetSize * aspect)`. -/
def resizedDims (imgWidth imgHeight : ℕ) : ℤ × ℤ :=
  let aspect : ℚ := (imgWidth : ℚ) / (imgHeight : ℚ)
  if imgHeight ≤ imgWidth then
    ((targetSize : ℤ), jsRound ((targetSize : ℚ) / aspect))
  else
    (jsRound ((targetSize : ℚ) * aspect), (targetSize : ℤ))

/-- A single typed-array write `a[i] = v` (in-range; the fill loop below
only produces in-range indices). -/
def store (a : ℕ → ℚ) (i : ℕ) (v : ℚ) : ℕ → ℚ :=
  fun j => if j = i then v else a j

/-- One iteration of the NCHW fill loop (lines 99–109) for pixel index
`p = i / 4`: the RGBA samples of pixel `p` sit at interleaved indices
`4p`, `4p+1`, `4p+2` (the alpha sample at `4p+3` is not read), and the
loop stores `float32Data[p] = r/255`, `float32Data[p + S²] = g/255`,
`float32Data[p + 2·S²] = b/255`. -/
def nchwStep (imageData : ℕ → Fin 256) (a : ℕ → ℚ) (p : ℕ) : ℕ → ℚ :=
  store (store (store a
      p (((imageData (4 * p)).val : ℚ) / 255))
      (p + targetSize * targetSize) (((imageData (4 * p + 1)).val : ℚ) / 255))
      (p + 2 * (targetSize * targetSize)) (((imageData (4 * p + 2)).val : ℚ) / 255)

/-- The full fill loop of lines 99–109: `i = 0, 4, …, 4·S²−4`, i.e. pixel
indices `0, …, S²−1` in order, starting from the all-zero allocation of
`new Float32Array(3 * targetSize * targetSize)`. -/
@[irreducible] def fillNCHW (imageData : ℕ → Fin 256) : ℕ → ℚ :=
  (List.range (targetSize * targetSize)).foldl (nchwStep imageData) (fun _ => 0)


/-- A `Float32Array`: its fixed allocation length and its contents. -/
structure Float32ArrayModel where
  length : ℕ
  data : ℕ → ℚ

/-- The object returned by `processImage` (lines 125–131). -/
structure LetterboxResult where
  float32Data : Float32ArrayModel
  dims : List ℕ
  resizeFactor : ℚ
  padLeft : ℤ
  padTop : ℤ

/-- `processImage` (lines 23–132).  The geometry (resized dimensions and
padding offsets) is computed from the input dimensions; the tensor is the
NCHW conversion of the padded canvas read-back `imageData`.  The source
computes `padRight`/`padBottom` as well but neither uses nor returns
them.  `resizeFactor` is the constant `1` of line 118 (the commented-out
alternative is dead code). -/
def processImage (imgWidth imgHeight : ℕ) (imageData : ℕ → Fin 256) :
    LetterboxResult :=
  let nd := resizedDims imgWidth imgHeight
  let padX : ℤ := (targetSize : ℤ) - nd.1
  let padY : ℤ := (targetSize : ℤ) - nd.2
  { float32Data :=
      { length := 3 * targetSize * targetSize
        data := fillNCHW imageData }
    dims := [1, 3, targetSize, targetSize]
    resizeFactor := 1
    padLeft := ⌊(padX : ℚ) / 2⌋
    padTop := ⌊(padY : ℚ) / 2⌋ }

/-! ## background.js -/

/-- A session handle returned by `ort.InferenceSession.create`; the code
only ever consults its `outputNames`. -/
structure Session where
  outputNames : List String

/-- An `ort.Tensor`, as constructed at line 82 of background.js. -/
structure OrtTensor where
  data : List ℚ
  dims : List ℕ

/-- The named-output map produced by `ortSession.run`. -/
structure RunOutputs where
  get : String → OrtTensor

/-- The request handled by `handleProcessImage`: the popup sends
`tensorData` and `dimensions` (plus metadata the handler does not read). -/
structure InferenceRequest where
  tensorData : List ℚ
  dimensions : List ℕ

/-- The success payload returned at lines 97–101 of background.js. -/
structure InferenceResponse where
  rawDataLength : ℕ
  rawDims : List ℕ
  placeholder : String

/-- The observable outcome of one `handleProcessImage` call: the returned
value or thrown error, plus instrumentation recording whether
`ortSession.run` was invoked, which tensor was handed to it, and whether
`inputTensor.dispose()` ran. -/
structure HandleResult where
  result : Except String InferenceResponse
  engineCalled : Bool
  tensorSent : Option OrtTensor
  tensorDisposed : Bool

/-- `handleProcessImage` (lines 75–102 of background.js): throw if
`ortSession` is null; otherwise build the input tensor from the request,
run the session (`run` is the engine oracle; `Except.error` is a thrown
exception, which propagates and skips the rest of the function body),
dispose the tensor, and return the first output's length and dims. -/
def handleProcessImage (ortSession : Option Session)
    (run : OrtTensor → Except String RunOutputs)
    (request : InferenceRequest) : HandleResult :=
  match ortSession with
  | none =>
      { result := Except.error "Model not initialized. Try again later."
        engineCalled := false
        tensorSent := none
        tensorDisposed := false }
  | some s =>
      let inputTensor : OrtTensor :=
        { data := request.tensorData, dims := request.dimensions }
      match run inputTensor with
      | Except.error e =>
          { result := Except.error e
            engineCalled := true
            tensorSent := some inputTensor
            tensorDisposed := false }
      | Except.ok outputs =>
          let firstOutputName := s.outputNames.headD ""
          let out := outputs.get firstOutputName
          { result := Except.ok
              { rawDataLength := out.data.length
                rawDims := out.dims
                placeholder := "You can do real postprocessing here." }
            engineCalled := true
            tensorSent := some inputTensor
            tensorDisposed := true }

/-- The state of the background worker: the global `ortSession` (line 19)
plus an instrumentation counter of `ort.InferenceSession.create`
invocations. -/
structure BgState where
  ortSession : Option Session
  createCalls : ℕ

/-- `initModel` (lines 35–52): `ort.InferenceSession.create` is
invoked unconditionally (`outcome` is what the awaited create produces);
on success its result is assigned to `ortSession`; on failure the catch
block logs and rethrows, so the assignment never runs and the state is
left as it was. -/
def initModel (st : BgState) (outcome : Except String Session) :
    BgState :=
  match outcome with
  | Except.ok s => { ortSession := some s, createCalls := st.createCalls + 1 }
  | Except.error _ => { st with createCalls := st.createCalls + 1 }

/-- A lifecycle event of the background worker: an `initModel` run
(with the outcome of its engine-load) or a `handleProcessImage` call. -/
inductive BgEvent where
  | initModel (outcome : Except String Session)
  | processImage (run : OrtTensor → Except String RunOutputs)
      (request : InferenceRequest)

/-- Effect of one event on the worker state. `handleProcessImage` never
writes `ortSession`. -/
def bgStep (st : BgState) : BgEvent → BgState
  | BgEvent.initModel outcome => initModel st outcome
  | BgEvent.processImage _ _ => st

/-- The worker state after a list of events, starting from the initial
`let ortSession = null` of line 19. -/
def bgRun (events : List BgEvent) : BgState :=
  events.foldl bgStep { ortSession := none, createCalls := 0 }

/-! ## Two concurrent `initModel` calls

Each invocation of `initModel` (successful-create case) has exactly
one suspension point: the `await ort.InferenceSession.create(...)` of
line 46.  So an execution of one call is two atomic steps: step 0 invokes
`create` (the engine load starts), step 1 resumes after the await and
assigns the produced session to `ortSession`.  A schedule interleaving
two such calls is a list of task ids (`false`/`true`); a task that has
already finished ignores further steps. -/

/-- Program counters and shared state for two interleaved
`initModel` calls. -/
structure ConcState where
  ortSession : Option Session
  createCalls : ℕ
  pc0 : ℕ
  pc1 : ℕ

/-- Advance task `t` by one atomic step of `initModel` (both
creates succeeding; `mk t` is the session task `t`'s create produces). -/
def initTaskStep (mk : Bool → Session) (st : ConcState) (t : Bool) :
    ConcState :=
  let pc := if t then st.pc1 else st.pc0
  if pc = 0 then
    if t then { st with createCalls := st.createCalls + 1, pc1 := 1 }
    else { st with createCalls := st.createCalls + 1, pc0 := 1 }
  else if pc = 1 then
    if t then { st with ortSession := some (mk t), pc1 := 2 }
    else { st with ortSession := some (mk t), pc0 := 2 }
  else st

/-- Run a schedule of two interleaved `initModel` calls from the
initial state. -/
def twoInitExec (mk : Bool → Session) (sched : List Bool) : ConcState :=
  sched.foldl (initTaskStep mk)
    { ortSession := none, createCalls := 0, pc0 := 0, pc1 := 0 }

/-! ## Concrete sample inputs (used by witnesses and counterexamples) -/

/-- An all-zero canvas read-back. -/
def zeroImageData : ℕ → Fin 256 := fun _ => 0

/-- A session whose create succeeded. -/
def sampleSession : Session := { outputNames := ["output0"] }

/-- A small well-formed request. -/
def sampleRequest : InferenceRequest :=
  { tensorData := [0, 0, 0], dimensions := [3] }

/-- A request whose data length (5) differs from the product of its
dims (1·3·320·320 = 307200). -/
def mismatchedRequest : InferenceRequest :=
  { tensorData := [0, 0, 0, 0, 0], dimensions := [1, 3, 320, 320] }

/-- An engine oracle whose run succeeds with an empty output tensor. -/
def okRun : OrtTensor → Except String RunOutputs :=
  fun _ => Except.ok { get := fun _ => { data := [], dims := [] } }

/-- An engine oracle whose run throws. -/
def failRun : OrtTensor → Except String RunOutputs :=
  fun _ => Except.error "engine failure"

/-- Sessions produced by the two concurrent creates. -/
def mkSession : Bool → Session :=
  fun t => { outputNames := [if t then "output1" else "output0"] }

/-! ## Helper lemmas -/

lemma store_same (a : ℕ → ℚ) (i : ℕ) (v : ℚ) : store a i v i = v :=
  if_pos rfl

lemma store_other (a : ℕ → ℚ) (i : ℕ) (v : ℚ) {j : ℕ} (h : j ≠ i) :
    store a i v j = a j :=
  if_neg h

lemma targetSize_sq_pos : 0 < targetSize * targetSize := by
  norm_num [targetSize]

lemma fillNCHW_eq (d : ℕ → Fin 256) :
    fillNCHW d
      = (List.range (targetSize * targetSize)).foldl (nchwStep d) (fun _ => 0) := by
  unfold fillNCHW
  rfl

lemma jsRound_intCast (z : ℤ) : jsRound ((z : ℚ)) = z := by
  unfold jsRound
  rw [Int.floor_eq_iff]
  constructor
  · linarith
  · linarith

lemma jsRound_le {x : ℚ} {z : ℤ} (h : x ≤ (z : ℚ)) : jsRound x ≤ z := by
  have hz : ⌊(z : ℚ) + 1 / 2⌋ = z := by
    rw [Int.floor_eq_iff]
    constructor
    · linarith
    · linarith
  calc jsRound x = ⌊x + 1 / 2⌋ := rfl
    _ ≤ ⌊(z : ℚ) + 1 / 2⌋ := Int.floor_le_floor (by linarith)
    _ = z := hz

lemma nchwStep_at_r (d : ℕ → Fin 256) (a : ℕ → ℚ) (p : ℕ) :
    nchwStep d a p p = ((d (4 * p)).val : ℚ) / 255 := by
  have hpos := targetSize_sq_pos
  unfold nchwStep
  rw [store_other _ _ _ (by omega), store_other _ _ _ (by omega), store_same]

lemma nchwStep_at_g (d : ℕ → Fin 256) (a : ℕ → ℚ) (p : ℕ) :
    nchwStep d a p (p + targetSize * targetSize)
      = ((d (4 * p + 1)).val : ℚ) / 255 := by
  have hpos := targetSize_sq_pos
  unfold nchwStep
  rw [store_other _ _ _ (by omega), store_same]

lemma nchwStep_at_b (d : ℕ → Fin 256) (a : ℕ → ℚ) (p : ℕ) :
    nchwStep d a p (p + 2 * (targetSize * targetSize))
      = ((d (4 * p + 2)).val : ℚ) / 255 := by
  unfold nchwStep
  rw [store_same]

lemma nchwStep_other (d : ℕ → Fin 256) (a : ℕ → ℚ) (p : ℕ) {j : ℕ}
    (h1 : j ≠ p) (h2 : j ≠ p + targetSize * targetSize)
    (h3 : j ≠ p + 2 * (targetSize * targetSize)) :
    nchwStep d a p j = a j := by
  unfold nchwStep
  rw [store_other _ _ _ h3, store_other _ _ _ h2, store_other _ _ _ h1]

/-- After the first `n ≤ S²` iterations of the fill loop, every pixel `p`
already visited holds its three channel samples at `p`, `p + S²`,
`p + 2·S²`. -/
lemma range_foldl_nchw (d : ℕ → Fin 256) :
    ∀ n, n ≤ targetSize * targetSize → ∀ p, p < n →
      ((List.range n).foldl (nchwStep d) (fun _ => 0)) p
        = ((d (4 * p)).val : ℚ) / 255
      ∧ ((List.range n).foldl (nchwStep d) (fun _ => 0))
          (p + targetSize * targetSize)
        = ((d (4 * p + 1)).val : ℚ) / 255
      ∧ ((List.range n).foldl (nchwStep d) (fun _ => 0))
          (p + 2 * (targetSize * targetSize))
        = ((d (4 * p + 2)).val : ℚ) / 255 := by
  intro n
  induction n with
  | zero =>
    intro _ p hp
    exact absurd hp (Nat.not_lt_zero p)
  | succ n ih =>
    intro hn p hp
    rw [List.range_succ, List.foldl_append, List.foldl_cons, List.foldl_nil]
    by_cases hpn : p = n
    · subst hpn
      exact ⟨nchwStep_at_r d _ p, nchwStep_at_g d _ p, nchwStep_at_b d _ p⟩
    · have hplt : p < n := by omega
      have hnlt : n < targetSize * targetSize := by omega
      have hrec := ih (by omega) p hplt
      refine ⟨?_, ?_, ?_⟩
      · rw [nchwStep_other d _ n (by omega) (by omega) (by omega)]
        exact hrec.1
      · rw [nchwStep_other d _ n (by omega) (by omega) (by omega)]
        exact hrec.2.1
      · rw [nchwStep_other d _ n (by omega) (by omega) (by omega)]
        exact hrec.2.2

/-- Every value the fill loop ever stores, and the zero fill it starts
from, lies in `[0, 1]`. -/
lemma foldl_nchw_mem (d : ℕ → Fin 256) :
    ∀ (ps : List ℕ) (a : ℕ → ℚ),
      (∀ j, 0 ≤ a j ∧ a j ≤ 1) →
      ∀ j, 0 ≤ (ps.foldl (nchwStep d) a) j ∧ (ps.foldl (nchwStep d) a) j ≤ 1 := by
  intro ps
  induction ps with
  | nil =>
    intro a ha j
    exact ha j
  | cons q qs ih =>
    intro a ha j
    rw [List.foldl_cons]
    refine ih _ ?_ j
    intro k
    have h255 : ∀ m : Fin 256, (0 : ℚ) ≤ (m.val : ℚ) / 255
        ∧ (m.val : ℚ) / 255 ≤ 1 := by
      intro m
      constructor
      · positivity
      · rw [div_le_one (by norm_num)]
        exact_mod_cast Nat.lt_succ_iff.mp m.isLt
    simp only [nchwStep, store]
    split_ifs
    · exact h255 _
    · exact h255 _
    · exact h255 _
    · exact ha k

/-- The fill loop never reads an alpha sample: two read-backs agreeing on
all indices `i` with `i % 4 ≠ 3` produce the same stores. -/
lemma foldl_nchw_congr (d d' : ℕ → Fin 256)
    (h : ∀ i, i % 4 ≠ 3 → d i = d' i) :
    ∀ (ps : List ℕ) (a : ℕ → ℚ),
      ps.foldl (nchwStep d) a = ps.foldl (nchwStep d') a := by
  intro ps
  induction ps with
  | nil =>
    intro a
    rfl
  | cons q qs ih =>
    intro a
    rw [List.foldl_cons, List.foldl_cons]
    have hstep : nchwStep d a q = nchwStep d' a q := by
      unfold nchwStep
      rw [h (4 * q) (by omega), h (4 * q + 1) (by omega), h (4 * q + 2) (by omega)]
    rw [hstep]
    exact ih _

/-- A width-0 image is sent down the portrait branch and resized to a
0-wide strip. -/
lemma resizedDims_zero_width (h : ℕ) (hh : 1 ≤ h) :
    resizedDims 0 h = (0, (targetSize : ℤ)) := by
  simp only [resizedDims]
  rw [if_neg (by omega)]
  norm_num [jsRound, Prod.ext_iff]

/-- Wherever the `ortSession` global is non-null, it is the session some
successful create produced (generalised over the start state for the
induction). -/
lemma bgRun_session_source :
    ∀ (events : List BgEvent) (st : BgState),
      (events.foldl bgStep st).ortSession = st.ortSession
      ∨ ∃ s, (events.foldl bgStep st).ortSession = some s
          ∧ BgEvent.initModel (Except.ok s) ∈ events := by
  intro events
  induction events with
  | nil => intro st; exact Or.inl rfl
  | cons e es ih =>
    intro st
    rw [List.foldl_cons]
    rcases ih (bgStep st e) with h | ⟨s, h1, h2⟩
    · rw [h]
      cases e with
      | initModel outcome =>
        cases outcome with
        | ok s => exact Or.inr ⟨s, rfl, List.mem_cons_self _ _⟩
        | error msg => exact Or.inl rfl
      | processImage run req => exact Or.inl rfl
    · exact Or.inr ⟨s, h1, List.mem_cons_of_mem _ h2⟩

/-- If no successful initialization event occurred, `ortSession` is still
null. -/
lemma bgRun_no_ok_init (events : List BgEvent)
    (hno : ∀ s, BgEvent.initModel (Except.ok s) ∉ events) :
    (bgRun events).ortSession = none := by
  rcases bgRun_session_source events { ortSession := none, createCalls := 0 }
    with h | ⟨s, _, hmem⟩
  · exact h
  · exact absurd hmem (hno s)

/-- The create counter always equals the number of tasks that have
started (each task increments it exactly once, at its first step). -/
lemma twoInitExec_inv (mk : Bool → Session) :
    ∀ (sched : List Bool) (st : ConcState),
      st.createCalls = min st.pc0 1 + min st.pc1 1 →
      (sched.foldl (initTaskStep mk) st).createCalls
        = min (sched.foldl (initTaskStep mk) st).pc0 1
          + min (sched.foldl (initTaskStep mk) st).pc1 1 := by
  intro sched
  induction sched with
  | nil => intro st h; simpa using h
  | cons t ts ih =>
    intro st h
    rw [List.foldl_cons]
    refine ih _ ?_
    cases t <;> simp only [initTaskStep] <;> split_ifs <;> (try simp) <;> omega

/-! ## Claim theorems about image_processor.js -/

/-- Claim C1: for every input, `processImage` returns a tensor of length
exactly 3·320·320 = 307200 with every element in [0, 1]; for each pixel
`p` (row-major over the 320×320 grid) the red sample divided by 255 is
stored at index `p`, the green at `p + 320²`, the blue at `p + 2·320²`,
and the alpha sample is never read (read-backs agreeing away from alpha
indices give identical tensors). -/
theorem processImage_tensor_layout (w h : ℕ) (d : ℕ → Fin 256)
    (p : Fin (targetSize * targetSize)) :
    (processImage w h d).float32Data.length = 307200
    ∧ (processImage w h d).float32Data.data p.val
      = ((d (4 * p.val)).val : ℚ) / 255
    ∧ (processImage w h d).float32Data.data (p.val + targetSize * targetSize)
      = ((d (4 * p.val + 1)).val : ℚ) / 255
    ∧ (processImage w h d).float32Data.data
        (p.val + 2 * (targetSize * targetSize))
      = ((d (4 * p.val + 2)).val : ℚ) / 255
    ∧ (∀ j, 0 ≤ (processImage w h d).float32Data.data j
        ∧ (processImage w h d).float32Data.data j ≤ 1)
    ∧ (∀ d' : ℕ → Fin 256, (∀ i, i % 4 ≠ 3 → d i = d' i) →
        (processImage w h d).float32Data.data
          = (processImage w h d').float32Data.data) := by
  have hdata : ∀ dd : ℕ → Fin 256, (processImage w h dd).float32Data.data
      = (List.range (targetSize * targetSize)).foldl (nchwStep dd) (fun _ => 0) := by
    intro dd
    rw [show (processImage w h dd).float32Data.data = fillNCHW dd from rfl,
      fillNCHW_eq]
  have hmain := range_foldl_nchw d (targetSize * targetSize) le_rfl p.val p.isLt
  refine ⟨rfl, ?_, ?_, ?_, ?_, ?_⟩
  · rw [hdata d]
    exact hmain.1
  · rw [hdata d]
    exact hmain.2.1
  · rw [hdata d]
    exact hmain.2.2
  · intro j
    rw [hdata d]
    exact foldl_nchw_mem d (List.range (targetSize * targetSize)) (fun _ => 0)
      (fun k => by norm_num) j
  · intro d' hdd
    rw [hdata d, hdata d']
    exact foldl_nchw_congr d d' hdd (List.range (targetSize * targetSize))
      (fun _ => 0)

/-- Witness for C1 at a concrete image and the all-zero read-back. -/
theorem processImage_tensor_layout_witness :
    (processImage 640 480 zeroImageData).float32Data.data 0 = 0
    ∧ (processImage 640 480 zeroImageData).float32Data.data
      = (processImage 640 480 zeroImageData).float32Data.data := by
  have h := processImage_tensor_layout 640 480 zeroImageData
    ⟨0, targetSize_sq_pos⟩
  constructor
  · have h1 := h.2.1
    simpa [zeroImageData] using h1
  · exact h.2.2.2.2.2 zeroImageData (fun i _ => rfl)

/-- Claim C2: for width ≥ height the resize produces newWidth = 320 and
newHeight = round(320·height/width); symmetrically, for height > width it
produces newHeight = 320 and newWidth = round(320·width/height). -/
theorem resizedDims_aspect (w h : ℕ) (_hw : 1 ≤ w) (_hh : 1 ≤ h) :
    (h ≤ w → resizedDims w h
      = ((targetSize : ℤ), jsRound ((targetSize : ℚ) * (h : ℚ) / (w : ℚ))))
    ∧ (w < h → resizedDims w h
      = (jsRound ((targetSize : ℚ) * (w : ℚ) / (h : ℚ)), (targetSize : ℤ))) := by
  constructor
  · intro hle
    simp only [resizedDims]
    rw [if_pos hle, div_div_eq_mul_div]
  · intro hlt
    simp only [resizedDims]
    rw [if_neg (by omega), mul_div_assoc]

/-- Witness for C2: the 640×480 image resizes to 320×240. -/
theorem resizedDims_aspect_witness : resizedDims 640 480 = (320, 240) := by
  have h := (resizedDims_aspect 640 480 (by norm_num) (by norm_num)).1
    (by norm_num)
  rw [h]
  norm_num [targetSize, jsRound, Prod.ext_iff]

/-- Claim C4 counterexample: for the 640×480 image the returned
resizeFactor is the placeholder 1, not the uniform scale
min(320/640, 320/480) = 1/2 actually applied. -/
theorem resizeFactor_cex :
    ¬ ((processImage 640 480 zeroImageData).resizeFactor
      = min ((targetSize : ℚ) / 640) ((targetSize : ℚ) / 480)) := by
  intro hcontra
  have h1 : (processImage 640 480 zeroImageData).resizeFactor = 1 := rfl
  rw [h1, show ((targetSize : ℚ) / 640) = 1 / 2 by norm_num [targetSize],
    show ((targetSize : ℚ) / 480) = 2 / 3 by norm_num [targetSize],
    min_def] at hcontra
  norm_num at hcontra

/-- Claim C4 (amended): the scale field (resizeFactor) of every returned
LetterboxResult is the constant 1 of line 118, an identity placeholder,
not the true uniform scale factor. -/
theorem resizeFactor_constant_one (w h : ℕ) (d : ℕ → Fin 256) :
    (processImage w h d).resizeFactor = 1 := rfl

/-- Claim C7 counterexample: a 100×100 image resizes to 320×320 — both
dimensions equal 320, so it is false that exactly one of them does. -/
theorem resizedDims_exactly_one_cex :
    ¬ (((resizedDims 100 100).1 = 320 ∧ (resizedDims 100 100).2 ≠ 320)
      ∨ ((resizedDims 100 100).1 ≠ 320 ∧ (resizedDims 100 100).2 = 320)) := by
  have hboth : resizedDims 100 100 = (320, 320) := by
    simp only [resizedDims]
    rw [if_pos (by norm_num)]
    norm_num [targetSize, jsRound, Prod.ext_iff]
  simp [hboth]

/-- Claim C7 (amended): for every image with integer dimensions ≥ 1,
neither resized dimension exceeds 320 and at least one of them equals
320; both may equal it (squares, and near-squares such as 1000×999). -/
theorem resizedDims_bounded (w h : ℕ) (hw : 1 ≤ w) (hh : 1 ≤ h) :
    (resizedDims w h).1 ≤ (targetSize : ℤ)
    ∧ (resizedDims w h).2 ≤ (targetSize : ℤ)
    ∧ ((resizedDims w h).1 = (targetSize : ℤ)
        ∨ (resizedDims w h).2 = (targetSize : ℤ)) := by
  have ht : (0 : ℚ) ≤ (targetSize : ℚ) := by positivity
  by_cases hle : h ≤ w
  · have heq : resizedDims w h
        = ((targetSize : ℤ), jsRound ((targetSize : ℚ) / ((w : ℚ) / (h : ℚ)))) := by
      simp only [resizedDims]
      rw [if_pos hle]
    rw [heq]
    refine ⟨le_refl _, ?_, Or.inl rfl⟩
    apply jsRound_le
    have hw0 : (0 : ℚ) < (w : ℚ) := by
      exact_mod_cast hw
    have hcast : (h : ℚ) ≤ (w : ℚ) := by
      exact_mod_cast hle
    rw [div_div_eq_mul_div, div_le_iff₀ hw0]
    push_cast
    exact mul_le_mul_of_nonneg_left hcast ht
  · have hlt : w < h := by omega
    have heq : resizedDims w h
        = (jsRound ((targetSize : ℚ) * ((w : ℚ) / (h : ℚ))), (targetSize : ℤ)) := by
      simp only [resizedDims]
      rw [if_neg (by omega)]
    rw [heq]
    refine ⟨?_, le_refl _, Or.inr rfl⟩
    apply jsRound_le
    have hh0 : (0 : ℚ) < (h : ℚ) := by
      exact_mod_cast hh
    have hratio : (w : ℚ) / (h : ℚ) ≤ 1 := by
      rw [div_le_one hh0]
      exact_mod_cast le_of_lt hlt
    push_cast
    exact mul_le_of_le_one_right ht hratio

/-- Witness for C7 (amended) at the 640×480 image. -/
theorem resizedDims_bounded_witness :
    (resizedDims 640 480).1 ≤ (targetSize : ℤ)
    ∧ (resizedDims 640 480).2 ≤ (targetSize : ℤ)
    ∧ ((resizedDims 640 480).1 = (targetSize : ℤ)
        ∨ (resizedDims 640 480).2 = (targetSize : ℤ)) :=
  resizedDims_bounded 640 480 (by norm_num) (by norm_num)

/-- Claim C8 counterexample: a width-0 image raises no error —
`processImage` has no validation branch and still produces a full
LetterboxResult, centring the degenerate 0-wide strip at padLeft = 160. -/
theorem processImage_zero_width_cex :
    (processImage 0 5 zeroImageData).padLeft = 160
    ∧ (processImage 0 5 zeroImageData).padTop = 0
    ∧ (processImage 0 5 zeroImageData).dims = [1, 3, targetSize, targetSize]
    ∧ (processImage 0 5 zeroImageData).resizeFactor = 1 := by
  have hnd := resizedDims_zero_width 5 (by norm_num)
  refine ⟨?_, ?_, rfl, rfl⟩
  · have hpl : (processImage 0 5 zeroImageData).padLeft
        = ⌊(((targetSize : ℤ) - (resizedDims 0 5).1 : ℤ) : ℚ) / 2⌋ := rfl
    rw [hpl, hnd]
    norm_num [targetSize]
  · have hpt : (processImage 0 5 zeroImageData).padTop
        = ⌊(((targetSize : ℤ) - (resizedDims 0 5).2 : ℤ) : ℚ) / 2⌋ := rfl
    rw [hpt, hnd]
    norm_num

/-- Claim C8 (amended): `processImage` performs no zero-dimension
validation and raises no InvalidImageError: a width-0 image still yields
a LetterboxResult by the same formulas — newWidth = round(320·(0/h)) = 0,
newHeight = 320, padLeft = 160, padTop = 0. -/
theorem processImage_zero_width_no_error (h : ℕ) (hh : 1 ≤ h)
    (d : ℕ → Fin 256) :
    resizedDims 0 h = (0, (targetSize : ℤ))
    ∧ (processImage 0 h d).padLeft = 160
    ∧ (processImage 0 h d).padTop = 0
    ∧ (processImage 0 h d).dims = [1, 3, targetSize, targetSize] := by
  have hnd := resizedDims_zero_width h hh
  refine ⟨hnd, ?_, ?_, rfl⟩
  · have hpl : (processImage 0 h d).padLeft
        = ⌊(((targetSize : ℤ) - (resizedDims 0 h).1 : ℤ) : ℚ) / 2⌋ := rfl
    rw [hpl, hnd]
    norm_num [targetSize]
  · have hpt : (processImage 0 h d).padTop
        = ⌊(((targetSize : ℤ) - (resizedDims 0 h).2 : ℤ) : ℚ) / 2⌋ := rfl
    rw [hpt, hnd]
    norm_num

/-- Witness for C8 (amended) at height 5. -/
theorem processImage_zero_width_no_error_witness :
    (processImage 0 5 zeroImageData).padTop = 0 :=
  (processImage_zero_width_no_error 5 (by norm_num) zeroImageData).2.2.1

/-! ## Claim theorems about background.js -/

/-- Claim C3: whenever `handleProcessImage` runs while no successful
initialization has completed (no `initModel` event whose engine load
succeeded has occurred, so the session is not Ready), the call yields the
model-not-ready error and the inference engine is not invoked. -/
theorem handleProcessImage_not_ready (events : List BgEvent)
    (run : OrtTensor → Except String RunOutputs) (req : InferenceRequest)
    (hno : ∀ s, BgEvent.initModel (Except.ok s) ∉ events) :
    (handleProcessImage (bgRun events).ortSession run req).result
      = Except.error "Model not initialized. Try again later."
    ∧ (handleProcessImage (bgRun events).ortSession run req).engineCalled
      = false := by
  rw [bgRun_no_ok_init events hno]
  exact ⟨rfl, rfl⟩

/-- Witness for C3: after a single failed initialization, a request is
answered with the error and no engine call. -/
theorem handleProcessImage_not_ready_witness :
    (handleProcessImage
      (bgRun [BgEvent.initModel (Except.error "load failed")]).ortSession
      failRun sampleRequest).engineCalled = false := by
  have hno : ∀ s, BgEvent.initModel (Except.ok s)
      ∉ [BgEvent.initModel (Except.error "load failed")] := by
    intro s hmem
    simp at hmem
  exact (handleProcessImage_not_ready
    [BgEvent.initModel (Except.error "load failed")] failRun sampleRequest hno).2

/-- Claim C5 counterexample: a request whose tensor length (5) differs
from the product of its dims (307200) is nonetheless passed to the
engine — the run is invoked and the call does not fail at all, so no
`ShapeMismatchError` is raised before (or instead of) the engine call. -/
theorem no_shape_check_cex :
    mismatchedRequest.tensorData.length ≠ mismatchedRequest.dimensions.prod
    ∧ (handleProcessImage (some sampleSession) okRun
        mismatchedRequest).engineCalled = true
    ∧ ∀ e : String,
        (handleProcessImage (some sampleSession) okRun
          mismatchedRequest).result ≠ Except.error e := by
  refine ⟨by norm_num [mismatchedRequest], rfl, ?_⟩
  intro e
  simp [handleProcessImage, okRun, mismatchedRequest, sampleSession]

/-- Claim C5 (amended): `handleProcessImage` performs no shape
validation — for every session and every request, mismatched or not, the
tensor built from the request's data and dims is handed to the engine and
the engine run is invoked. -/
theorem handleProcessImage_forwards_unvalidated (s : Session)
    (run : OrtTensor → Except String RunOutputs) (req : InferenceRequest) :
    (handleProcessImage (some s) run req).engineCalled = true
    ∧ (handleProcessImage (some s) run req).tensorSent
      = some { data := req.tensorData, dims := req.dimensions } := by
  cases hrun : run { data := req.tensorData, dims := req.dimensions } with
  | ok outputs => simp [handleProcessImage, hrun]
  | error e => simp [handleProcessImage, hrun]

/-- Claim C9 counterexample: when the engine run throws, the input tensor
was created and sent but `dispose` never runs (line 86 is only reached on
the success path). -/
theorem dispose_skipped_cex :
    (handleProcessImage (some sampleSession) failRun
      sampleRequest).engineCalled = true
    ∧ (handleProcessImage (some sampleSession) failRun
        sampleRequest).tensorSent
      = some { data := sampleRequest.tensorData
               dims := sampleRequest.dimensions }
    ∧ (handleProcessImage (some sampleSession) failRun
        sampleRequest).tensorDisposed = false :=
  ⟨rfl, rfl, rfl⟩

/-- Claim C9 (amended): the transient input tensor is disposed exactly
when the engine run succeeds; on the throwing path the dispose call is
skipped. -/
theorem dispose_on_success_only (s : Session)
    (run : OrtTensor → Except String RunOutputs) (req : InferenceRequest) :
    (handleProcessImage (some s) run req).tensorDisposed
      = (run { data := req.tensorData, dims := req.dimensions }).isOk := by
  cases hrun : run { data := req.tensorData, dims := req.dimensions } with
  | ok outputs => simp [handleProcessImage, hrun, Except.isOk, Except.toBool]
  | error e => simp [handleProcessImage, hrun, Except.isOk, Except.toBool]

/-- Claim C6 counterexample: in the overlapped schedule where the second
`initModel` call starts while the first call's engine load is still in
flight, two `InferenceSession.create` invocations occur, not one. -/
theorem two_loads_cex :
    (twoInitExec mkSession [false, true, false, true]).createCalls = 2
    ∧ (twoInitExec mkSession [false, true, false, true]).createCalls ≠ 1 := by
  constructor
  · rfl
  · intro hcontra
    have h2 : (twoInitExec mkSession [false, true, false, true]).createCalls
        = 2 := rfl
    rw [h2] at hcontra
    exact absurd hcontra (by norm_num)

/-- Claim C6 (amended): `initModel` has no coalescing of an in-flight
load — in every schedule of two interleaved calls in which both calls
have started, the underlying engine load has been invoked twice. -/
theorem twoInitExec_create_count (mk : Bool → Session) (sched : List Bool)
    (h0 : 1 ≤ (twoInitExec mk sched).pc0)
    (h1 : 1 ≤ (twoInitExec mk sched).pc1) :
    (twoInitExec mk sched).createCalls = 2 := by
  have h := twoInitExec_inv mk sched
    { ortSession := none, createCalls := 0, pc0 := 0, pc1 := 0 } (by simp)
  unfold twoInitExec at h0 h1 ⊢
  omega

/-- Witness for C6 (amended): a completed overlapped schedule. -/
theorem twoInitExec_create_count_witness :
    (twoInitExec mkSession [true, false, true, false]).createCalls = 2 :=
  twoInitExec_create_count mkSession [true, false, true, false]
    (by decide) (by decide)

/-- Claim C10: at every reachable state of the worker, the global
`ortSession` is either null or the very session returned by some
successfully completed `InferenceSession.create`; and a failed
(re)initialization leaves `ortSession` exactly as it was. -/
theorem ortSession_integrity (events : List BgEvent) :
    ((bgRun events).ortSession = none
      ∨ ∃ s, (bgRun events).ortSession = some s
          ∧ BgEvent.initModel (Except.ok s) ∈ events)
    ∧ ∀ (st : BgState) (e : String),
        (initModel st (Except.error e)).ortSession = st.ortSession := by
  constructor
  · rcases bgRun_session_source events { ortSession := none, createCalls := 0 }
      with h | h
    · exact Or.inl h
    · exact Or.inr h
  · intro st e
    rfl

end Safes
